import Mathlib

/-!
Shallow embedding of the authentication core of the `react-nativeTS`
(NestJS biometric/password authentication) repository:

* `UserService` (`src/src/user/user.service.ts`): `createUser`,
  `addBiometricKey`, `findByEmail`, `findAll`, `findUserByBiometricKey`,
  `biometricKeyExists`;
* `AuthService` (auth service source file): `validateUser`,
  `biometricLogin`, `login`;
* `UserResolver.registerWithBiometric` (`src/src/user/resolver/user.resolver.ts`).

The Prisma store is modelled as a list of user records threaded through every
operation; bcrypt is modelled as an ideal salted one-way hash (a hash value
remembers the salt and the hashed plaintext; verification compares the
plaintext, and distinct plaintexts never collide). The JWT signer is modelled
as an injective rendering of the claims payload.
-/

namespace Biometric

/-- Models a bcrypt hash value: `bcrypt.hash(plain, 10)` with a random salt.
The salt makes two hashes of the same plaintext distinct as stored values,
so equality of stored hashes cannot be used to compare plaintexts; the
nondeterministic salt is passed explicitly by callers. -/
structure BHash where
  salt : Nat
  plain : String
deriving Repr, DecidableEq

/-- Models `bcrypt.hash(plaintext, 10)` (external bcryptjs collaborator). -/
def bcrypt_hash (plain : String) (salt : Nat) : BHash :=
  ⟨salt, plain⟩

/-- Models `bcrypt.compare(plaintext, stored)`: verification of a plaintext
against a stored hash (external bcryptjs collaborator); an ideal hash
verifies exactly the plaintext it was produced from. -/
def bcrypt_compare (plain : String) (stored : BHash) : Bool :=
  plain == stored.plain

/-- The string form in which a bcrypt hash is persisted in the database
column (the TS code stores hashes as strings). It is never equal to the
bare plaintext. -/
def renderHash (h : BHash) : String :=
  "$2b$10$" ++ Nat.repr h.salt ++ "$" ++ h.plain

/-- User record (`src/src/user/user.model.ts` / Prisma row): `id`, `email`,
hashed `password`, optional `biometricKeys` array of stored hashes.
Timestamps are irrelevant to every operation modelled here and omitted. -/
structure User where
  id : Nat
  email : String
  password : BHash
  biometricKeys : Option (List BHash)
deriving Repr, DecidableEq

/-- The persisted user collection, in store enumeration order
(`prisma.user.findMany()` order). -/
abbrev Store := List User

/-- Errors raised by the services (`ConflictException`,
`BadRequestException`, Prisma record-not-found). -/
inductive AppError where
  | conflict (msg : String)
  | badRequest (msg : String)
  | notFound (msg : String)
deriving Repr, DecidableEq

/-- Models `prisma.user.findUnique({ where: { id } })`. -/
def findUnique_id (s : Store) (uid : Nat) : Option User :=
  s.find? (fun u => u.id == uid)

/-- Models `prisma.user.findUnique({ where: { email } })`; this is
`UserService.findByEmail`. -/
def findByEmail (s : Store) (email : String) : Option User :=
  s.find? (fun u => u.email == email)

/-- Models `prisma.user.findMany()`; this is `UserService.findAll`. -/
def findAll (s : Store) : List User := s

/-- The id the store assigns to a newly created row (autoincrement: one more
than the largest id in use). -/
def freshId (s : Store) : Nat :=
  (s.map User.id).foldr max 0 + 1

/-- Does one stored hash of this user's biometric-key sequence verify
against the plaintext `k`? This is the inner loop of
`findUserByBiometricKey` (`user.biometricKeys || []` with
`bcrypt.compare`). -/
def userMatches (k : String) (u : User) : Bool :=
  (u.biometricKeys.getD []).any (fun h => bcrypt_compare k h)

/-- `UserService.findUserByBiometricKey`: scan all users in store order,
return the first whose biometric-hash sequence verifies the plaintext. -/
def findUserByBiometricKey (s : Store) (k : String) : Option User :=
  s.find? (userMatches k)

/-- `UserService.biometricKeyExists`: look the single user up by id and
verify the plaintext against only that user's own stored hashes
(`if (user && user.biometricKeys)` guard). -/
def biometricKeyExists (s : Store) (uid : Nat) (k : String) : Bool :=
  match findUnique_id s uid with
  | some u =>
    match u.biometricKeys with
    | some ks => ks.any (fun h => bcrypt_compare k h)
    | none => false
  | none => false

/-- The row `createUser` persists: `data: { email, password: hashedPassword,
biometricKeys: [] }` with the store-assigned id. -/
def createdUser (s : Store) (email password : String) (salt : Nat) : User :=
  { id := freshId s, email := email,
    password := bcrypt_hash password salt, biometricKeys := some [] }

/-- `UserService.createUser`: conflict if the email is taken, otherwise hash
the password and persist a new row with an empty biometric-key array.
Every operation returns its result together with the store after the call. -/
def createUser (s : Store) (email password : String) (salt : Nat) :
    Except AppError User × Store :=
  match findByEmail s email with
  | some _ => (Except.error (AppError.conflict "User already exists"), s)
  | none =>
    (Except.ok (createdUser s email password salt),
     s ++ [createdUser s email password salt])

/-- Append one stored hash to a row's biometric-key array (an absent array
behaves as empty under the push). -/
def pushKey (h : BHash) (u : User) : User :=
  { u with biometricKeys := some (u.biometricKeys.getD [] ++ [h]) }

/-- Apply `pushKey h` to the rows whose id is `uid`, leave the rest alone. -/
def pushIfId (uid : Nat) (h : BHash) (v : User) : User :=
  if v.id == uid then pushKey h v else v

/-- The record update performed by `prisma.user.update({ where: { id },
data: { biometricKeys: { push: h } } })`: append `h` to the row's
biometric-key array, failing if no row has the id (modelled from the store
contract: `update(by: {id}, ...) → User`). -/
def update_push (s : Store) (uid : Nat) (h : BHash) :
    Except AppError User × Store :=
  match findUnique_id s uid with
  | none => (Except.error (AppError.notFound "Record to update not found"), s)
  | some u => (Except.ok (pushKey h u), s.map (pushIfId uid h))

/-- `UserService.addBiometricKey`: hash the candidate key, scan the whole
store for any user already verifying against the plaintext (conflict if
found, with the store untouched), otherwise push the new hash onto the
target user's array. -/
def addBiometricKey (s : Store) (uid : Nat) (k : String) (salt : Nat) :
    Except AppError User × Store :=
  match findUserByBiometricKey s k with
  | some _ =>
    (Except.error (AppError.conflict "Biometric key already exists for another user"), s)
  | none => update_push s uid (bcrypt_hash k salt)

/-- `AuthService.validateUser`: look up by email; return the user exactly
when the plaintext password verifies against the stored hash, `none` in
every other case. -/
def validateUser (s : Store) (email password : String) : Option User :=
  match findByEmail s email with
  | some u => if bcrypt_compare password u.password then some u else none
  | none => none

/-- Models `jwtService.sign(payload)` (external collaborator): an injective
rendering of the claims payload `{ email, sub }`. -/
def jwtSign (email : String) (sub : Nat) : String :=
  "signed." ++ email ++ "." ++ Nat.repr sub

/-- The login response `{ access_token }`. -/
structure AuthResponse where
  access_token : String
deriving Repr, DecidableEq

/-- `AuthService.login`: build the claims payload `{ email, sub: id }` from
the user record and sign it. -/
def login (u : User) : AuthResponse :=
  ⟨jwtSign u.email u.id⟩

/-- `AuthService.biometricLogin`: delegate to `findUserByBiometricKey`;
fail with `BadRequestException("Invalid biometric key")` when no user
matches, otherwise issue a token via `login`. -/
def biometricLogin (s : Store) (k : String) : Except AppError AuthResponse :=
  match findUserByBiometricKey s k with
  | none => Except.error (AppError.badRequest "Invalid biometric key")
  | some u => Except.ok (login u)

/-- `UserResolver.registerWithBiometric`: validate the email/password pair,
reject when the literal plaintext key string is an element of the validated
user's in-memory `biometricKeys` array (string equality against the stored
hash strings, not a hash verification), otherwise delegate to
`addBiometricKey`; the surrounding try/catch re-wraps every failure into
`BadRequestException("Failed to set up biometric key")`. -/
def registerWithBiometric (s : Store) (email password biometricKey : String)
    (salt : Nat) : Except AppError String × Store :=
  match validateUser s email password with
  | none => (Except.error (AppError.badRequest "Failed to set up biometric key"), s)
  | some user =>
    if (user.biometricKeys.getD []).any (fun h => renderHash h == biometricKey) then
      (Except.error (AppError.badRequest "Failed to set up biometric key"), s)
    else
      match addBiometricKey s user.id biometricKey salt with
      | (Except.error _, s') =>
        (Except.error (AppError.badRequest "Failed to set up biometric key"), s')
      | (Except.ok _, s') =>
        (Except.ok ("Biometric key added successfully for " ++ user.email), s')

/-- Store states reachable from the empty store by the mutating operations
(`createUser`, `addBiometricKey`); a failed operation leaves the store as
it was. -/
inductive Reachable : Store → Prop where
  | init : Reachable []
  | create {s : Store} (email password : String) (salt : Nat) :
      Reachable s → Reachable (createUser s email password salt).2
  | addKey {s : Store} (uid : Nat) (k : String) (salt : Nat) :
      Reachable s → Reachable (addBiometricKey s uid k salt).2

/-- How many user records in the store have some stored hash verifying
against the plaintext `k`. -/
def matchCount (s : Store) (k : String) : Nat :=
  s.countP (userMatches k)

/-! ### Basic lemmas about the hash model and the push helpers -/

theorem bcrypt_compare_hash (p q : String) (salt : Nat) :
    bcrypt_compare p (bcrypt_hash q salt) = (p == q) := rfl

theorem pushKey_id (h : BHash) (u : User) : (pushKey h u).id = u.id := rfl

theorem pushIfId_id (uid : Nat) (h : BHash) (v : User) :
    (pushIfId uid h v).id = v.id := by
  unfold pushIfId
  split <;> rfl

theorem userMatches_pushKey (q k : String) (salt : Nat) (u : User) :
    userMatches q (pushKey (bcrypt_hash k salt) u)
      = (userMatches q u || (q == k)) := by
  simp [userMatches, pushKey, bcrypt_compare, bcrypt_hash]

theorem userMatches_none_keys (q : String) (u : User)
    (h : u.biometricKeys = none) : userMatches q u = false := by
  simp [userMatches, h]

theorem userMatches_createdUser (q : String) (s : Store)
    (email password : String) (salt : Nat) :
    userMatches q (createdUser s email password salt) = false := by
  simp [userMatches, createdUser]

/-! ### Concrete fixtures used by the witnesses -/

/-- A user with a password and no biometric keys yet. -/
def demoUser0 : User :=
  { id := 1, email := "a@x.com", password := bcrypt_hash "pw1" 0,
    biometricKeys := some [] }

/-- A user holding the stored hash of the biometric plaintext `"bio1"`. -/
def demoUser1 : User :=
  { id := 2, email := "b@x.com", password := bcrypt_hash "pw2" 1,
    biometricKeys := some [bcrypt_hash "bio1" 3] }

/-- A user whose `biometricKeys` field is absent (NULL column). -/
def demoUser2 : User :=
  { id := 3, email := "c@x.com", password := bcrypt_hash "pw3" 2,
    biometricKeys := none }

/-- A three-user store exercising all record shapes. -/
def demoStore : Store := [demoUser0, demoUser1, demoUser2]

/-! ### Claim theorems -/

/-- **C3.** `findUserByBiometricKey` verifies the plaintext against every
stored hash of every record via the one-way comparison: it returns `none`
exactly when no record's hash sequence matches, and any returned record is
a matching one that is first in store enumeration order (every record
before it fails to match). -/
theorem findUserByBiometricKey_first_match (s : Store) (k : String) :
    (findUserByBiometricKey s k = none ↔ ∀ u ∈ s, userMatches k u = false) ∧
    (∀ u, findUserByBiometricKey s k = some u →
      userMatches k u = true ∧
      ∃ pre post, s = pre ++ u :: post ∧ ∀ v ∈ pre, userMatches k v = false) := by
  constructor
  · rw [findUserByBiometricKey, List.find?_eq_none]
    simp
  · intro u hu
    rw [findUserByBiometricKey, List.find?_eq_some] at hu
    obtain ⟨hpred, pre, post, heq, hpre⟩ := hu
    exact ⟨hpred, pre, post, heq, fun v hv => by simpa using hpre v hv⟩

/-- Witness for C3 at a concrete store: `"bio1"` matches `demoUser1`,
which sits after the non-matching `demoUser0`. -/
theorem findUserByBiometricKey_first_match_witness :
    (findUserByBiometricKey [demoUser0] "nope" = none ↔
      ∀ u ∈ [demoUser0], userMatches "nope" u = false) ∧
    (userMatches "bio1" demoUser1 = true ∧
      ∃ pre post, demoStore = pre ++ demoUser1 :: post ∧
        ∀ v ∈ pre, userMatches "bio1" v = false) :=
  ⟨(findUserByBiometricKey_first_match [demoUser0] "nope").1,
   (findUserByBiometricKey_first_match demoStore "bio1").2 demoUser1 (by decide)⟩

/-- **C4.** `validateUser` returns the user exactly when the email lookup
succeeds and the plaintext password verifies against the stored hash; it
returns `none` both when no record has the email and when the password
does not verify, so the two failure causes are indistinguishable. -/
theorem validateUser_spec (s : Store) (email password : String) :
    (∀ u, validateUser s email password = some u ↔
      (findByEmail s email = some u ∧ bcrypt_compare password u.password = true)) ∧
    (findByEmail s email = none → validateUser s email password = none) ∧
    (∀ u, findByEmail s email = some u → bcrypt_compare password u.password = false →
      validateUser s email password = none) := by
  refine ⟨?_, ?_, ?_⟩
  · intro u
    unfold validateUser
    cases hf : findByEmail s email with
    | none => simp
    | some v =>
      dsimp only
      by_cases hc : bcrypt_compare password v.password = true
      · rw [if_pos hc]
        constructor
        · intro h
          cases h
          exact ⟨rfl, hc⟩
        · rintro ⟨hv, _⟩
          exact hv
      · rw [if_neg hc]
        constructor
        · intro h
          exact absurd h (by simp)
        · rintro ⟨hv, hcmp⟩
          cases hv
          exact absurd hcmp hc
  · intro h
    simp [validateUser, h]
  · intro u h hc
    simp [validateUser, h, hc]

/-- Witness for C4: correct password round-trips, unknown email and wrong
password both yield `none`. -/
theorem validateUser_spec_witness :
    (validateUser demoStore "a@x.com" "pw1" = some demoUser0 ↔
      (findByEmail demoStore "a@x.com" = some demoUser0 ∧
        bcrypt_compare "pw1" demoUser0.password = true)) ∧
    validateUser demoStore "z@x.com" "pw1" = none ∧
    validateUser demoStore "a@x.com" "wrong" = none :=
  ⟨(validateUser_spec demoStore "a@x.com" "pw1").1 demoUser0,
   (validateUser_spec demoStore "z@x.com" "pw1").2.1 (by decide),
   (validateUser_spec demoStore "a@x.com" "wrong").2.2 demoUser0 (by decide) (by decide)⟩

/-- **C5.** `biometricLogin` fails with the authentication error
`BadRequestException("Invalid biometric key")` when `findUserByBiometricKey`
returns `none`, and otherwise issues a signed token whose claims payload is
exactly `{ email, sub: id }` from the matched user's record. -/
theorem biometricLogin_spec (s : Store) (k : String) :
    (findUserByBiometricKey s k = none →
      biometricLogin s k = Except.error (AppError.badRequest "Invalid biometric key")) ∧
    (∀ u, findUserByBiometricKey s k = some u →
      biometricLogin s k = Except.ok { access_token := jwtSign u.email u.id }) := by
  constructor
  · intro h
    simp [biometricLogin, h]
  · intro u h
    simp [biometricLogin, h, login]

/-- Witness for C5: an unknown plaintext is rejected, the stored one yields
the token signed over `{ email := "b@x.com", sub := 2 }`. -/
theorem biometricLogin_spec_witness :
    biometricLogin demoStore "nope" =
      Except.error (AppError.badRequest "Invalid biometric key") ∧
    biometricLogin demoStore "bio1" =
      Except.ok { access_token := jwtSign demoUser1.email demoUser1.id } :=
  ⟨(biometricLogin_spec demoStore "nope").1 (by decide),
   (biometricLogin_spec demoStore "bio1").2 demoUser1 (by decide)⟩

/-- **C6.** `createUser` on an already-registered email fails with
`ConflictException("User already exists")` and the store after the failed
call is exactly the store before it: no record is created or modified. -/
theorem createUser_conflict_preserves_store (s : Store) (email password : String)
    (salt : Nat) (hex : ∃ u ∈ s, u.email = email) :
    createUser s email password salt
      = (Except.error (AppError.conflict "User already exists"), s) := by
  obtain ⟨u, hu, he⟩ := hex
  unfold createUser
  cases hf : findByEmail s email with
  | some v => rfl
  | none =>
    rw [findByEmail, List.find?_eq_none] at hf
    exact absurd (by simp [he] : (u.email == email) = true) (hf u hu)

/-- Witness for C6: re-registering `"a@x.com"` fails and leaves the store
untouched. -/
theorem createUser_conflict_preserves_store_witness :
    createUser demoStore "a@x.com" "other" 5
      = (Except.error (AppError.conflict "User already exists"), demoStore) :=
  createUser_conflict_preserves_store demoStore "a@x.com" "other" 5
    ⟨demoUser0, by decide, rfl⟩

/-- **C10.** `biometricKeyExists` returns `false` (without failing) for a
`userId` matching no record, and a record with an absent `biometricKeys`
field acts as having no keys: `biometricKeyExists` returns `false` on it
and `findUserByBiometricKey` can never return such a record. -/
theorem biometric_lookup_total_on_missing :
    (∀ s uid k, findUnique_id s uid = none → biometricKeyExists s uid k = false) ∧
    (∀ s uid k u, findUnique_id s uid = some u → u.biometricKeys = none →
      biometricKeyExists s uid k = false) ∧
    (∀ s k u, findUserByBiometricKey s k = some u → u.biometricKeys ≠ none) := by
  refine ⟨?_, ?_, ?_⟩
  · intro s uid k h
    simp [biometricKeyExists, h]
  · intro s uid k u h hk
    simp [biometricKeyExists, h, hk]
  · intro s k u h hk
    rw [findUserByBiometricKey] at h
    have hm := List.find?_some h
    rw [userMatches_none_keys k u hk] at hm
    exact Bool.false_ne_true hm

/-- Witness for C10: unknown id 99 gives `false`, the NULL-keyed user gives
`false`, and the record returned for `"bio1"` has a present key array. -/
theorem biometric_lookup_total_on_missing_witness :
    biometricKeyExists demoStore 99 "bio1" = false ∧
    biometricKeyExists demoStore 3 "bio1" = false ∧
    demoUser1.biometricKeys ≠ none :=
  ⟨biometric_lookup_total_on_missing.1 demoStore 99 "bio1" (by decide),
   biometric_lookup_total_on_missing.2.1 demoStore 3 "bio1" demoUser2 (by decide) rfl,
   biometric_lookup_total_on_missing.2.2 demoStore "bio1" demoUser1 (by decide)⟩

theorem findUnique_id_map_pushIfId (s : Store) (uid : Nat) (h : BHash) :
    findUnique_id (s.map (pushIfId uid h)) uid
      = (findUnique_id s uid).map (pushIfId uid h) := by
  have hcomp : ((fun u : User => u.id == uid) ∘ pushIfId uid h)
      = (fun u : User => u.id == uid) := by
    funext v
    simp [Function.comp, pushIfId_id]
  rw [findUnique_id, findUnique_id, List.find?_map, hcomp]

/-- **C2.** `addBiometricKey` fails with
`ConflictException("Biometric key already exists for another user")` exactly
when some record anywhere in the store (the target user included — the two
cases are rejected identically, against any target id) verifies against the
plaintext, and on that failure the store is unchanged; when no record
verifies, the new hash of the key is appended to the target user's sequence
and persisted. -/
theorem addBiometricKey_spec (s : Store) (uid : Nat) (k : String) (salt : Nat) :
    ((∃ u ∈ s, userMatches k u = true) ↔
      addBiometricKey s uid k salt =
        (Except.error (AppError.conflict "Biometric key already exists for another user"), s)) ∧
    (∀ u, findUnique_id s uid = some u → (∀ v ∈ s, userMatches k v = false) →
      addBiometricKey s uid k salt =
        (Except.ok (pushKey (bcrypt_hash k salt) u),
         s.map (pushIfId uid (bcrypt_hash k salt)))) := by
  constructor
  · constructor
    · rintro ⟨u, hu, hm⟩
      unfold addBiometricKey
      cases hscan : findUserByBiometricKey s k with
      | some v => rfl
      | none =>
        rw [findUserByBiometricKey, List.find?_eq_none] at hscan
        exact absurd hm (hscan u hu)
    · intro h
      by_contra hno
      have hscan : findUserByBiometricKey s k = none := by
        rw [findUserByBiometricKey, List.find?_eq_none]
        intro x hx hmx
        exact hno ⟨x, hx, hmx⟩
      rw [addBiometricKey] at h
      rw [hscan] at h
      unfold update_push at h
      cases hf : findUnique_id s uid with
      | none =>
        rw [hf] at h
        simp at h
      | some u =>
        rw [hf] at h
        simp at h
  · intro u hf hall
    have hscan : findUserByBiometricKey s k = none := by
      rw [findUserByBiometricKey, List.find?_eq_none]
      intro x hx
      simp [hall x hx]
    rw [addBiometricKey, hscan]
    unfold update_push
    rw [hf]

/-- Witness for C2: registering `"bio1"` again conflicts (even naming the
other user's id) and leaves the store as it was; a fresh plaintext is
appended to the target user's sequence. -/
theorem addBiometricKey_spec_witness :
    addBiometricKey demoStore 1 "bio1" 9 =
      (Except.error (AppError.conflict "Biometric key already exists for another user"),
       demoStore) ∧
    addBiometricKey demoStore 1 "newbio" 9 =
      (Except.ok (pushKey (bcrypt_hash "newbio" 9) demoUser0),
       demoStore.map (pushIfId 1 (bcrypt_hash "newbio" 9))) :=
  ⟨(addBiometricKey_spec demoStore 1 "bio1" 9).1.mp ⟨demoUser1, by decide, by decide⟩,
   (addBiometricKey_spec demoStore 1 "newbio" 9).2 demoUser0 (by decide) (by decide)⟩

/-- **C8.** After a successful `addBiometricKey(userId, key)`,
`biometricKeyExists(userId, key)` is true; `biometricKeyExists(userId, k)`
is false whenever `k` verifies against none of that user's own stored
hashes; and `biometricKeyExists` depends only on the record the id lookup
returns, never on other users' records. -/
theorem biometricKeyExists_spec :
    (∀ s uid k salt u s₂, addBiometricKey s uid k salt = (Except.ok u, s₂) →
      biometricKeyExists s₂ uid k = true) ∧
    (∀ s uid k u, findUnique_id s uid = some u →
      (∀ h ∈ u.biometricKeys.getD [], bcrypt_compare k h = false) →
      biometricKeyExists s uid k = false) ∧
    (∀ s t uid k, findUnique_id s uid = findUnique_id t uid →
      biometricKeyExists s uid k = biometricKeyExists t uid k) := by
  refine ⟨?_, ?_, ?_⟩
  · intro s uid k salt u s₂ h
    rw [addBiometricKey] at h
    cases hscan : findUserByBiometricKey s k with
    | some v =>
      rw [hscan] at h
      simp at h
    | none =>
      rw [hscan] at h
      rw [update_push] at h
      cases hf : findUnique_id s uid with
      | none =>
        rw [hf] at h
        simp at h
      | some u₀ =>
        rw [hf] at h
        have hs₂ : s₂ = s.map (pushIfId uid (bcrypt_hash k salt)) :=
          (congrArg Prod.snd h).symm
        have hf' : List.find? (fun v => v.id == uid) s = some u₀ := hf
        have hid : (u₀.id == uid) = true := by
          simpa using List.find?_some hf'
        subst hs₂
        rw [biometricKeyExists, findUnique_id_map_pushIfId, hf]
        simp [pushIfId, hid, pushKey, bcrypt_compare, bcrypt_hash]
  · intro s uid k u hf hall
    rw [biometricKeyExists, hf]
    dsimp only
    cases hks : u.biometricKeys with
    | none => rfl
    | some ks =>
      dsimp only
      simp only [List.any_eq_false]
      intro x hx
      have hx' := hall x (by rw [hks]; simpa using hx)
      simp [hx']
  · intro s t uid k h
    unfold biometricKeyExists
    rw [h]

/-- Witness for C8: adding `"newbio"` for user 1 makes the per-user check
true; `"other"` verifies against none of user 2's hashes and the check is
false; the check agrees across two stores returning the same record for
id 2. -/
theorem biometricKeyExists_spec_witness :
    biometricKeyExists (demoStore.map (pushIfId 1 (bcrypt_hash "newbio" 9))) 1 "newbio" = true ∧
    biometricKeyExists demoStore 2 "other" = false ∧
    biometricKeyExists demoStore 2 "bio1" = biometricKeyExists [demoUser1] 2 "bio1" :=
  ⟨biometricKeyExists_spec.1 demoStore 1 "newbio" 9
      (pushKey (bcrypt_hash "newbio" 9) demoUser0)
      (demoStore.map (pushIfId 1 (bcrypt_hash "newbio" 9))) rfl,
   biometricKeyExists_spec.2.1 demoStore 2 "other" demoUser1 (by decide) (by decide),
   biometricKeyExists_spec.2.2 demoStore [demoUser1] 2 "bio1" (by decide)⟩

/-- **C7.** For a fresh email, `createUser` persists exactly one new record
whose stored password hash verifies against the original plaintext and
whose biometric-key sequence is empty; `validateUser` with the same pair on
the resulting store returns that record; and the persisted password column
(the rendered hash string) is not the plaintext. -/
theorem createUser_then_validateUser (s : Store) (email password : String)
    (salt : Nat) (hfree : ∀ u ∈ s, u.email ≠ email) :
    createUser s email password salt =
      (Except.ok (createdUser s email password salt),
       s ++ [createdUser s email password salt]) ∧
    (createdUser s email password salt).biometricKeys = some [] ∧
    bcrypt_compare password (createdUser s email password salt).password = true ∧
    validateUser (s ++ [createdUser s email password salt]) email password =
      some (createdUser s email password salt) ∧
    renderHash (createdUser s email password salt).password ≠ password := by
  have hnone : findByEmail s email = none := by
    rw [findByEmail, List.find?_eq_none]
    intro u hu
    simp [hfree u hu]
  refine ⟨?_, rfl, ?_, ?_, ?_⟩
  · rw [createUser, hnone]
  · simp [createdUser, bcrypt_compare, bcrypt_hash]
  · have hfind : findByEmail (s ++ [createdUser s email password salt]) email
        = some (createdUser s email password salt) := by
      rw [findByEmail, List.find?_append]
      rw [findByEmail] at hnone
      rw [hnone]
      simp [createdUser]
    rw [validateUser, hfind]
    simp [createdUser, bcrypt_compare, bcrypt_hash]
  · intro heq
    have hlen := congrArg String.length heq
    rw [renderHash] at hlen
    simp only [String.length_append, createdUser, bcrypt_hash] at hlen
    have h7 : ("$2b$10$" : String).length = 7 := rfl
    have h1 : ("$" : String).length = 1 := rfl
    rw [h7, h1] at hlen
    omega

/-- Witness for C7 at a fresh email on the demo store. -/
theorem createUser_then_validateUser_witness :
    createUser demoStore "d@x.com" "pw4" 7 =
      (Except.ok (createdUser demoStore "d@x.com" "pw4" 7),
       demoStore ++ [createdUser demoStore "d@x.com" "pw4" 7]) ∧
    (createdUser demoStore "d@x.com" "pw4" 7).biometricKeys = some [] ∧
    bcrypt_compare "pw4" (createdUser demoStore "d@x.com" "pw4" 7).password = true ∧
    validateUser (demoStore ++ [createdUser demoStore "d@x.com" "pw4" 7]) "d@x.com" "pw4" =
      some (createdUser demoStore "d@x.com" "pw4" 7) ∧
    renderHash (createdUser demoStore "d@x.com" "pw4" 7).password ≠ "pw4" :=
  createUser_then_validateUser demoStore "d@x.com" "pw4" 7 (by decide)

/-- **C9.** `registerWithBiometric` first validates the email/password pair,
then rejects when the literal plaintext key string equals one of the
validated user's stored (rendered-hash) array entries — plain string
equality, not hash verification — and otherwise delegates to
`addBiometricKey`, whose store-wide hash-scan duplicate check runs in
addition; the two checks are distinct: a record holding the hash of
`"bio1"` passes the literal check for `"bio1"` yet matches the hash scan. -/
theorem registerWithBiometric_spec :
    (∀ s email pw k salt, validateUser s email pw = none →
      registerWithBiometric s email pw k salt =
        (Except.error (AppError.badRequest "Failed to set up biometric key"), s)) ∧
    (∀ s email pw k salt u, validateUser s email pw = some u →
      (u.biometricKeys.getD []).any (fun h => renderHash h == k) = true →
      registerWithBiometric s email pw k salt =
        (Except.error (AppError.badRequest "Failed to set up biometric key"), s)) ∧
    (∀ s email pw k salt u, validateUser s email pw = some u →
      (u.biometricKeys.getD []).any (fun h => renderHash h == k) = false →
      registerWithBiometric s email pw k salt =
        (match addBiometricKey s u.id k salt with
         | (Except.error _, s₂) =>
           (Except.error (AppError.badRequest "Failed to set up biometric key"), s₂)
         | (Except.ok _, s₂) =>
           (Except.ok ("Biometric key added successfully for " ++ u.email), s₂))) ∧
    ((demoUser1.biometricKeys.getD []).any (fun h => renderHash h == "bio1") = false ∧
      userMatches "bio1" demoUser1 = true) := by
  refine ⟨?_, ?_, ?_, by decide⟩
  · intro s email pw k salt h
    rw [registerWithBiometric, h]
  · intro s email pw k salt u h hin
    rw [registerWithBiometric, h]
    dsimp only
    rw [hin]
    simp
  · intro s email pw k salt u h hin
    rw [registerWithBiometric, h]
    dsimp only
    rw [hin]
    simp

/-- Witness for C9: unauthenticated call fails; a call naming the stored
rendered hash string verbatim trips the literal check; a fresh plaintext
falls through to `addBiometricKey`. -/
theorem registerWithBiometric_spec_witness :
    registerWithBiometric demoStore "nobody" "pw" "bio9" 9 =
      (Except.error (AppError.badRequest "Failed to set up biometric key"), demoStore) ∧
    registerWithBiometric demoStore "b@x.com" "pw2" "$2b$10$3$bio1" 9 =
      (Except.error (AppError.badRequest "Failed to set up biometric key"), demoStore) ∧
    registerWithBiometric demoStore "b@x.com" "pw2" "bio9" 9 =
      (match addBiometricKey demoStore demoUser1.id "bio9" 9 with
       | (Except.error _, s₂) =>
         (Except.error (AppError.badRequest "Failed to set up biometric key"), s₂)
       | (Except.ok _, s₂) =>
         (Except.ok ("Biometric key added successfully for " ++ demoUser1.email), s₂)) :=
  ⟨registerWithBiometric_spec.1 demoStore "nobody" "pw" "bio9" 9 (by decide),
   registerWithBiometric_spec.2.1 demoStore "b@x.com" "pw2" "$2b$10$3$bio1" 9 demoUser1
     (by decide) (by decide),
   registerWithBiometric_spec.2.2.1 demoStore "b@x.com" "pw2" "bio9" 9 demoUser1
     (by decide) (by decide)⟩

/-! ### The store-wide uniqueness invariant (C1) -/

theorem le_foldr_max (l : List Nat) (n : Nat) (hn : n ∈ l) :
    n ≤ l.foldr max 0 := by
  induction l with
  | nil => cases hn
  | cons a t ih =>
    rcases List.mem_cons.mp hn with rfl | ht
    · exact le_max_left _ _
    · exact le_trans (ih ht) (le_max_right _ _)

theorem freshId_not_mem (s : Store) : freshId s ∉ s.map User.id := by
  intro hmem
  have h := le_foldr_max (s.map User.id) (freshId s) hmem
  rw [freshId] at h
  omega

/-- The invariant maintained by the mutating operations: row ids are
pairwise distinct and every biometric plaintext matches at most one row. -/
def StoreWF (s : Store) : Prop :=
  (s.map User.id).Nodup ∧ ∀ k, matchCount s k ≤ 1

theorem storeWF_create (s : Store) (email pw : String) (salt : Nat)
    (hwf : StoreWF s) : StoreWF (createUser s email pw salt).2 := by
  obtain ⟨hnd, hcnt⟩ := hwf
  rw [createUser]
  cases hf : findByEmail s email with
  | some u => exact ⟨hnd, hcnt⟩
  | none =>
    dsimp only
    constructor
    · rw [List.map_append]
      refine List.nodup_append.mpr ⟨hnd, List.nodup_singleton _, ?_⟩
      intro a ha hb
      simp only [List.map_cons, List.map_nil, List.mem_singleton] at hb
      subst hb
      exact freshId_not_mem s ha
    · intro k
      rw [matchCount, List.countP_append]
      have h0 : List.countP (userMatches k) [createdUser s email pw salt] = 0 := by
        simp [List.countP_cons, userMatches_createdUser]
      rw [h0]
      simpa [matchCount] using hcnt k

theorem storeWF_addKey (s : Store) (uid : Nat) (k : String) (salt : Nat)
    (hwf : StoreWF s) : StoreWF (addBiometricKey s uid k salt).2 := by
  obtain ⟨hnd, hcnt⟩ := hwf
  rw [addBiometricKey]
  cases hscan : findUserByBiometricKey s k with
  | some u => exact ⟨hnd, hcnt⟩
  | none =>
    dsimp only
    rw [update_push]
    cases hf : findUnique_id s uid with
    | none => exact ⟨hnd, hcnt⟩
    | some u₀ =>
      dsimp only
      have hids : (s.map (pushIfId uid (bcrypt_hash k salt))).map User.id
          = s.map User.id := by
        rw [List.map_map]
        apply List.map_congr_left
        intro v hv
        exact pushIfId_id uid _ v
      have hnomatch : ∀ v ∈ s, userMatches k v = false := by
        rw [findUserByBiometricKey, List.find?_eq_none] at hscan
        intro v hv
        simpa using hscan v hv
      constructor
      · rw [hids]
        exact hnd
      · intro q
        rw [matchCount, List.countP_map]
        by_cases hq : q = k
        · subst hq
          have heq : ∀ v ∈ s,
              ((userMatches q ∘ pushIfId uid (bcrypt_hash q salt)) v = true)
                ↔ ((v.id == uid) = true) := by
            intro v hv
            simp only [Function.comp]
            rw [pushIfId]
            by_cases hvid : (v.id == uid) = true
            · rw [if_pos hvid, userMatches_pushKey]
              simp [hvid]
            · rw [if_neg hvid]
              simp [hnomatch v hv, hvid]
          rw [List.countP_congr heq]
          have hcc : s.countP (fun v => v.id == uid) = (s.map User.id).count uid := by
            rw [List.count_eq_countP, List.countP_map]
            rfl
          rw [hcc]
          exact List.nodup_iff_count_le_one.mp hnd uid
        · have heq : ∀ v ∈ s,
              ((userMatches q ∘ pushIfId uid (bcrypt_hash k salt)) v = true)
                ↔ (userMatches q v = true) := by
            intro v hv
            simp only [Function.comp]
            rw [pushIfId]
            by_cases hvid : (v.id == uid) = true
            · rw [if_pos hvid, userMatches_pushKey]
              simp [hq]
            · rw [if_neg hvid]
          rw [List.countP_congr heq]
          exact hcnt q

theorem reachable_storeWF {s : Store} (h : Reachable s) : StoreWF s := by
  induction h with
  | init => exact ⟨List.nodup_nil, fun k => by simp [matchCount]⟩
  | create email password salt hr ih => exact storeWF_create _ email password salt ih
  | addKey uid k salt hr ih => exact storeWF_addKey _ uid k salt ih

/-- **C1.** In every reachable store state a biometric plaintext matches at
most one user record, and the invariant is established at write time:
once `addBiometricKey` succeeds for one user, `addBiometricKey` with the
same plaintext for a second, different user fails with
`ConflictException("Biometric key already exists for another user")`
leaving the store unchanged. -/
theorem biometric_plaintext_at_most_one_user :
    (∀ s, Reachable s → ∀ k, matchCount s k ≤ 1) ∧
    (∀ s uid k salt u s₂ uid' salt',
      addBiometricKey s uid k salt = (Except.ok u, s₂) → uid' ≠ uid →
      addBiometricKey s₂ uid' k salt' =
        (Except.error (AppError.conflict "Biometric key already exists for another user"),
         s₂)) := by
  constructor
  · intro s hr k
    exact (reachable_storeWF hr).2 k
  · intro s uid k salt u s₂ uid' salt' hadd hne
    rw [addBiometricKey] at hadd
    cases hscan : findUserByBiometricKey s k with
    | some v =>
      rw [hscan] at hadd
      simp at hadd
    | none =>
      rw [hscan] at hadd
      rw [update_push] at hadd
      cases hf : findUnique_id s uid with
      | none =>
        rw [hf] at hadd
        simp at hadd
      | some u₀ =>
        rw [hf] at hadd
        have hs₂ : s₂ = s.map (pushIfId uid (bcrypt_hash k salt)) :=
          (congrArg Prod.snd hadd).symm
        have hf' : List.find? (fun v => v.id == uid) s = some u₀ := hf
        have hid : (u₀.id == uid) = true := by
          simpa using List.find?_some hf'
        have hmem : pushIfId uid (bcrypt_hash k salt) u₀ ∈ s₂ := by
          rw [hs₂]
          exact List.mem_map_of_mem _ (List.mem_of_find?_eq_some hf')
        have hmatch : userMatches k (pushIfId uid (bcrypt_hash k salt) u₀) = true := by
          rw [pushIfId, if_pos hid, userMatches_pushKey]
          simp
        rw [addBiometricKey]
        cases hscan₂ : findUserByBiometricKey s₂ k with
        | none =>
          rw [findUserByBiometricKey, List.find?_eq_none] at hscan₂
          exact absurd hmatch (hscan₂ _ hmem)
        | some w => rfl

/-- Witness for C1: a store reached by one registration satisfies the
match-count bound, and after user 1 claims `"fresh"`, user 2's attempt to
claim `"fresh"` is rejected with the conflict error. -/
theorem biometric_plaintext_at_most_one_user_witness :
    matchCount (createUser ([] : Store) "a@x.com" "pw1" 0).2 "bio1" ≤ 1 ∧
    addBiometricKey (demoStore.map (pushIfId 1 (bcrypt_hash "fresh" 4))) 2 "fresh" 5 =
      (Except.error (AppError.conflict "Biometric key already exists for another user"),
       demoStore.map (pushIfId 1 (bcrypt_hash "fresh" 4))) :=
  ⟨biometric_plaintext_at_most_one_user.1 _
     (Reachable.create "a@x.com" "pw1" 0 Reachable.init) "bio1",
   biometric_plaintext_at_most_one_user.2 demoStore 1 "fresh" 4
     (pushKey (bcrypt_hash "fresh" 4) demoUser0)
     (demoStore.map (pushIfId 1 (bcrypt_hash "fresh" 4))) 2 5 rfl (by decide)⟩

end Biometric
